import Mathlib

/-!
Verification development for the reactive-stream core consisting of
`src/internal/Subscription.ts` (the cancellation-token tree) and
`src/internal/create/from.ts` (the source adapters and dispatch).

The `Subscription` class is embedded as an arena of `Token` records addressed
by natural-number indices (JS object identity becomes the index), together
with an `Event` log that records the observable side effects of a run:
teardown functions being invoked and `closed` flags transitioning to true.
JS exceptions become explicit `Option Err` results, with `UnsubscriptionError`
modelled by the `Err.unsub` constructor.  Recursive disposal of child tokens
is fuelled; fuel exhaustion returns the state unchanged, and each theorem is
stated with fuel sufficient for the configuration it quantifies over.

The adapters of `from.ts` read only the token's `closed` flag, so for that
part of the development the subscription is projected to a `closed : Bool`
field inside the sink state, and delivering a message to the sink is an
explicit function argument (the sink may close the token, which is how the
mid-stream cancellation scenarios are expressed).
-/

/-- A JS exception value: either an ordinary error (identified by a number) or
an `UnsubscriptionError` carrying its `errors` array. -/
inductive Err where
  | base : Nat → Err
  | unsub : List Err → Err

/-- An entry of the observable-effect log: a teardown/release function with
identity `n` was invoked, or token `n`'s `closed` flag went from false to
true. -/
inductive Event where
  | run : Nat → Event
  | closedSet : Nat → Event
deriving DecidableEq

/-- `TeardownLogic` with `void` excluded, as stored in `_teardowns`: either a
plain function (with an identity used for logging and a possible exception it
throws when invoked) or a `Subscription` in the arena. -/
inductive Teardown where
  | func : Nat → Option Err → Teardown
  | sub : Nat → Teardown

/-- JS reference equality (`===` / `indexOf`) on teardowns: two function
objects are the same reference iff they have the same identity, two
subscriptions iff they are the same arena slot. -/
def Teardown.sameRef : Teardown → Teardown → Bool
  | .func i _, .func j _ => i == j
  | .sub i, .sub j => i == j
  | _, _ => false

/-- One `Subscription` object.  `_unsubscribe` is the constructor-supplied
release function (identity to log, possible exception), present together with
the `_ctorUnsubscribe` marker exactly as the constructor assigns them. -/
structure Token where
  closed : Bool
  _singleParent : Option Nat
  _parents : Option (List Nat)
  _teardowns : Option (List Teardown)
  _unsubscribe : Option (Nat × Option Err)
  _ctorUnsubscribe : Bool

/-- `new Subscription(unsubscribe?)`. -/
def Token.new (unsub : Option (Nat × Option Err)) : Token :=
  { closed := false, _singleParent := none, _parents := none, _teardowns := none,
    _unsubscribe := unsub, _ctorUnsubscribe := unsub.isSome }

/-- `Subscription.EMPTY`: a fresh subscription whose `closed` flag is forced
to true before it is shared. -/
def Token.EMPTY : Token :=
  { Token.new none with closed := true }

/-- The heap of subscription objects plus the observable-effect log. -/
structure World where
  tokens : List Token
  log : List Event

def getTok (w : World) (i : Nat) : Option Token := w.tokens[i]?

def setTok (w : World) (i : Nat) (t : Token) : World :=
  { w with tokens := w.tokens.set i t }

def modifyTok (w : World) (i : Nat) (f : Token → Token) : World :=
  match w.tokens[i]? with
  | none => w
  | some t => setTok w i (f t)

/-- `closed` as read from the arena (`false` for a dangling index, which no
reachable world contains). -/
def tokClosed (w : World) (i : Nat) : Bool :=
  (w.tokens[i]?.map Token.closed).getD false

/-- `Subscription._hasParent`. -/
def hasParentTok (w : World) (self parent : Nat) : Bool :=
  match w.tokens[self]? with
  | none => false
  | some t => t._singleParent == some parent || (t._parents.getD []).contains parent

/-- `Subscription._addParent` (assumes `_hasParent` was already checked). -/
def addParentTok (w : World) (self parent : Nat) : World :=
  modifyTok w self fun t =>
    match t._singleParent with
    | some sp => { t with _parents := some [sp, parent], _singleParent := none }
    | none =>
      match t._parents with
      | some ps => { t with _parents := some (ps ++ [parent]) }
      | none => { t with _singleParent := some parent }

/-- `Subscription._removeParent`. -/
def removeParentTok (w : World) (self parent : Nat) : World :=
  match w.tokens[self]? with
  | none => w
  | some t =>
    match t._singleParent with
    | some sp => if sp == parent then setTok w self { t with _singleParent := none } else w
    | none =>
      match t._parents with
      | some ps => setTok w self { t with _parents := some (ps.erase parent) }
      | none => w

/-- `Subscription.remove`: splice the first `===`-matching entry out of
`_teardowns`, then, for a subscription teardown, remove `self` from its
parent back-references. -/
def removeTok (w : World) (self : Nat) (td : Teardown) : World :=
  let w1 :=
    match w.tokens[self]? with
    | none => w
    | some t =>
      match t._teardowns with
      | none => w
      | some l => setTok w self { t with _teardowns := some (l.eraseP (fun x => Teardown.sameRef x td)) }
  match td with
  | .sub j => removeParentTok w1 j self
  | .func _ _ => w1

/-- The `errors` accumulation of `Subscription.unsubscribe`'s catch blocks:
`errors = errors ?? []`, then spread an `UnsubscriptionError`'s inner list,
otherwise push the error itself. -/
def collectErr (errors : Option (List Err)) (e : Err) : Option (List Err) :=
  match e with
  | .unsub es => some (errors.getD [] ++ es)
  | .base n => some (errors.getD [] ++ [Err.base n])

/-- The teardown loop of `Subscription.unsubscribe`: invoke each captured
teardown in order (`step` is the recursive disposal of a child subscription),
catching and collecting each failure so that later teardowns still run. -/
def runTeardowns (step : Nat → World → World × Option Err) :
    List Teardown → World → Option (List Err) → World × Option (List Err)
  | [], w, errors => (w, errors)
  | td :: rest, w, errors =>
    match td with
    | .func id e =>
      let w := { w with log := w.log ++ [Event.run id] }
      let errors := match e with
        | none => errors
        | some err => collectErr errors err
      runTeardowns step rest w errors
    | .sub j =>
      let p := step j w
      let errors := match p.2 with
        | none => errors
        | some err => collectErr errors err
      runTeardowns step rest p.1 errors

/-- The parent-detachment block of `Subscription.unsubscribe`: null the own
back-reference first, then call `remove` on each former parent (`t` is the
snapshot of the token at entry, from which `_singleParent`/`_parents` were
destructured). -/
def detachPhase (self : Nat) (t : Token) (w : World) : World :=
  match t._singleParent with
  | some p =>
    let w := modifyTok w self fun u => { u with _singleParent := none }
    removeTok w p (Teardown.sub self)
  | none =>
    match t._parents with
    | some ps =>
      let w := modifyTok w self fun u => { u with _parents := none }
      ps.foldl (fun w p => removeTok w p (Teardown.sub self)) w
    | none => w

/-- The constructor-release block of `Subscription.unsubscribe`: clear the
stored `_unsubscribe` reference (only when it was assigned by the
constructor), invoke it, and turn a thrown error into the initial `errors`
list. -/
def ctorPhase (self : Nat) (t : Token) (w : World) : World × Option (List Err) :=
  match t._unsubscribe with
  | none => (w, none)
  | some act =>
    let w := if t._ctorUnsubscribe then modifyTok w self (fun u => { u with _unsubscribe := none }) else w
    let w := { w with log := w.log ++ [Event.run act.1] }
    match act.2 with
    | none => (w, none)
    | some e => (w, collectErr none e)

/-- The teardown block of `Subscription.unsubscribe`: capture `_teardowns`,
null the stored reference, then iterate the captured list. -/
def teardownPhase (step : Nat → World → World × Option Err) (self : Nat)
    (w : World) (errors : Option (List Err)) : World × Option (List Err) :=
  let tds :=
    match w.tokens[self]? with
    | some u => u._teardowns
    | none => none
  let w := modifyTok w self fun u => { u with _teardowns := none }
  match tds with
  | none => (w, errors)
  | some list => runTeardowns step list w errors

/-- `Subscription.unsubscribe`, fuelled on the depth of recursive child
disposal.  Returns the new world and the thrown exception, if any (always an
`UnsubscriptionError`; note the source throws whenever `errors` is a defined
array, even an empty one, since an empty array is truthy in JS). -/
def unsubscribeTok : Nat → Nat → World → World × Option Err
  | 0, _, w => (w, none)
  | fuel + 1, self, w =>
    match w.tokens[self]? with
    | none => (w, none)
    | some t =>
      if t.closed then (w, none)
      else
        let w := { w with log := w.log ++ [Event.closedSet self] }
        let w := modifyTok w self fun u => { u with closed := true }
        let w := detachPhase self t w
        let q := ctorPhase self t w
        let r := teardownPhase (unsubscribeTok fuel) self q.1 q.2
        (r.1, r.2.map Err.unsub)

/-- `Subscription.add`.  `td = none` models an absent/undefined teardown; the
returned `Option Err` is the exception propagated to `add`'s caller (an
immediately-executed teardown may throw). -/
def addTok (fuel : Nat) (self : Nat) (td : Option Teardown) (w : World) : World × Option Err :=
  match td with
  | none => (w, none)
  | some td =>
    if Teardown.sameRef td (Teardown.sub self) then (w, none)
    else
      match w.tokens[self]? with
      | none => (w, none)
      | some t =>
        if t.closed then
          match td with
          | .func id e => ({ w with log := w.log ++ [Event.run id] }, e)
          | .sub j => unsubscribeTok fuel j w
        else
          match td with
          | .sub j =>
            if tokClosed w j || hasParentTok w j self then (w, none)
            else
              let w := addParentTok w j self
              (modifyTok w self (fun u => { u with _teardowns := some (u._teardowns.getD [] ++ [Teardown.sub j]) }), none)
          | .func id e =>
            (modifyTok w self (fun u => { u with _teardowns := some (u._teardowns.getD [] ++ [Teardown.func id e]) }), none)

/-- A producer-level failure delivered through the protocol: an ordinary
error value, or one of the two invalid-interop errors raised by
`symbolObservableSource` (identified by their message strings in the
source). -/
inductive PErr where
  | value : Nat → PErr
  | invalidNoObservable : PErr
  | invalidNoSubscribe : PErr
deriving DecidableEq

/-- A message delivered to the sink: `NEXT` with a value, `ERROR` with a
failure, or `COMPLETE` (whose payload is `undefined` in the source). -/
inductive Msg where
  | next : Nat → Msg
  | error : PErr → Msg
  | complete : Msg
deriving DecidableEq

/-- The state visible to an adapter: the messages the sink has received so
far and the `closed` flag of the subscription token passed to `SUBSCRIBE`. -/
structure SinkSt where
  received : List Msg
  closed : Bool
deriving DecidableEq

/-- A sink that records each message and performs no cancellation. -/
def passiveDeliver (s : SinkSt) (m : Msg) : SinkSt :=
  { s with received := s.received ++ [m] }

/-- A sink that records each message and unsubscribes the token as soon as it
receives its first `NEXT`. -/
def cancelOnNextDeliver (s : SinkSt) (m : Msg) : SinkSt :=
  let s := { s with received := s.received ++ [m] }
  match m with
  | .next _ => { s with closed := true }
  | _ => s

/-- `promiseSource`, observed at the instant the promise settles: `outcome`
is the settlement (fulfilled value or rejection reason) and `s` is the sink /
token state at that instant.  The source checks `subs.closed` once before the
fulfilment emission and not at all on the rejection path. -/
def promiseSource (deliver : SinkSt → Msg → SinkSt) (outcome : Except PErr Nat) (s : SinkSt) : SinkSt :=
  match outcome with
  | .ok v => if s.closed then s else deliver (deliver s (Msg.next v)) Msg.complete
  | .error e => deliver s (Msg.error e)

/-- The `while (true)` loop of `iterableSource`.  `step` is the iterator:
from an iterator state it returns `(none, _)` when `done` or
`(some value, nextState)` otherwise.  The Boolean result tells whether the
loop exited by exhaustion (`break`, after which `COMPLETE` is sent) as
opposed to returning because the token was closed; fuel exhaustion is
reported like a still-running loop. -/
def iterableLoop (deliver : SinkSt → Msg → SinkSt) (step : Nat → Option Nat × Nat) :
    Nat → Nat → SinkSt → SinkSt × Bool
  | 0, _, s => (s, false)
  | fuel + 1, it, s =>
    if s.closed then (s, false)
    else
      match step it with
      | (none, _) => (s, true)
      | (some v, it2) => iterableLoop deliver step fuel it2 (deliver s (Msg.next v))

/-- `iterableSource` on `SUBSCRIBE`: run the pull loop, then send `COMPLETE`
only if the loop exited by exhaustion. -/
def iterableSource (deliver : SinkSt → Msg → SinkSt) (step : Nat → Option Nat × Nat)
    (fuel it : Nat) (s : SinkSt) : SinkSt :=
  let p := iterableLoop deliver step fuel it s
  if p.2 then deliver p.1 Msg.complete else p.1

/-- What `input[symbolObservable]()` returned, as far as the adapter can
observe it: `null`/`undefined` (member access throws), another falsy value
(member access is fine but there is no subscribe method), a truthy object
without a callable `subscribe`, or a real stream that will push the given
events at its observer. -/
inductive InteropObs where
  | nullish : InteropObs
  | falsy : InteropObs
  | noSubscribe : InteropObs
  | stream : List Msg → InteropObs

/-- The outcome of `symbolObservableSource` on `SUBSCRIBE`: the final sink
state, whether a `TypeError` escaped to the caller of `SUBSCRIBE`, and
whether the unsubscribe-forwarding teardown was registered on the token. -/
structure InteropOutcome where
  sink : SinkSt
  crashed : Bool
  teardownRegistered : Bool
deriving DecidableEq

/-- `symbolObservableSource`.  Note the first validation branch sends the
"observable not returned" `ERROR` but does not return, so execution falls
through to `typeof obs.subscribe`, which throws a `TypeError` when `obs` is
`null`/`undefined` and sends a second `ERROR` when `obs` is another falsy
value.  A well-formed stream's events are forwarded to the sink 1:1. -/
def symbolObservableSource (deliver : SinkSt → Msg → SinkSt) (obs : InteropObs) (s : SinkSt) : InteropOutcome :=
  match obs with
  | .nullish =>
    { sink := deliver s (Msg.error PErr.invalidNoObservable), crashed := true, teardownRegistered := false }
  | .falsy =>
    let s := deliver s (Msg.error PErr.invalidNoObservable)
    { sink := deliver s (Msg.error PErr.invalidNoSubscribe), crashed := false, teardownRegistered := false }
  | .noSubscribe =>
    { sink := deliver s (Msg.error PErr.invalidNoSubscribe), crashed := false, teardownRegistered := false }
  | .stream evs =>
    { sink := evs.foldl deliver s, crashed := false, teardownRegistered := true }

/-- `asyncIterableSource`, observed over the successive settlements of
`ai.next()`: each list entry is one settlement (`.ok (some v)` a value,
`.ok none` done, `.error e` a rejection); an empty remainder models a promise
that never settles.  The source never reads `subs.closed`. -/
def asyncIterableSource (deliver : SinkSt → Msg → SinkSt) :
    List (Except PErr (Option Nat)) → SinkSt → SinkSt
  | [], s => s
  | stepRes :: rest, s =>
    match stepRes with
    | .ok none => deliver s Msg.complete
    | .ok (some v) => asyncIterableSource deliver rest (deliver s (Msg.next v))
    | .error e => deliver s (Msg.error e)

/-- The capability classifications of an input value, as reported by the
type-guard collaborators (`isObservable`, `isPromiseLike`, `isArrayLike`,
`isIterable`, `isInteropObservable`, `isAsyncIterable`); several may be true
for one value. -/
structure InputShape where
  isObservable : Bool
  isPromiseLike : Bool
  isArrayLike : Bool
  isIterable : Bool
  isInteropObservable : Bool
  isAsyncIterable : Bool

/-- The adapter selected by dispatch. -/
inductive SourceChoice where
  | passThrough : SourceChoice
  | promiseSrc : SourceChoice
  | ofSrc : SourceChoice
  | iterableSrc : SourceChoice
  | symbolObservableSrc : SourceChoice
  | asyncIterableSrc : SourceChoice
deriving DecidableEq

/-- `fromSource`: the if/else-if dispatch chain, throwing synchronously when
no shape matches. -/
def fromSource (x : InputShape) : Except String SourceChoice :=
  if x.isObservable then .ok .passThrough
  else if x.isPromiseLike then .ok .promiseSrc
  else if x.isArrayLike then .ok .ofSrc
  else if x.isIterable then .ok .iterableSrc
  else if x.isInteropObservable then .ok .symbolObservableSrc
  else if x.isAsyncIterable then .ok .asyncIterableSrc
  else .error "Unable to convert from input to Observable source"

/-- The spec's description of dispatch, for comparison with `fromSource`:
walk the fixed precedence table and select the adapter of the first matching
shape, failing with the unconvertible-input error when none matches. -/
def dispatchSpec (x : InputShape) : Except String SourceChoice :=
  let table : List (Bool × SourceChoice) :=
    [(x.isObservable, .passThrough), (x.isPromiseLike, .promiseSrc),
     (x.isArrayLike, .ofSrc), (x.isIterable, .iterableSrc),
     (x.isInteropObservable, .symbolObservableSrc), (x.isAsyncIterable, .asyncIterableSrc)]
  match table.find? (fun p => p.1) with
  | some p => .ok p.2
  | none => .error "Unable to convert from input to Observable source"

/-- Whether a message is terminal (`ERROR` or `COMPLETE`). -/
def isTerminal : Msg → Bool
  | .next _ => false
  | .error _ => true
  | .complete => true

/-- Number of terminal messages in a delivered-message list. -/
def terminalCount (l : List Msg) : Nat := (l.filter isTerminal).length



lemma tokClosed_some {w : World} {i : Nat} (h : tokClosed w i = true) :
    ∃ t, w.tokens[i]? = some t ∧ t.closed = true := by
  unfold tokClosed at h
  cases hg : w.tokens[i]? with
  | none => rw [hg] at h; simp at h
  | some t => rw [hg] at h; simp at h; exact ⟨t, rfl, h⟩

lemma tokClosed_setTok {w : World} {j : Nat} {t t' : Token}
    (hg : w.tokens[j]? = some t) (hc : t'.closed = t.closed) (i : Nat) :
    tokClosed (setTok w j t') i = tokClosed w i := by
  unfold tokClosed setTok
  by_cases hij : i = j
  · subst hij; rw [List.getElem?_set_self', hg]; simp [hc]
  · rw [List.getElem?_set_ne (by omega)]

lemma tokClosed_modifyTok_pres (f : Token → Token) {w : World} {j : Nat}
    (hf : ∀ t, (f t).closed = t.closed) (i : Nat) :
    tokClosed (modifyTok w j f) i = tokClosed w i := by
  unfold modifyTok
  cases hg : w.tokens[j]? with
  | none => rfl
  | some t => exact tokClosed_setTok hg (hf t) i

lemma tokClosed_modify_clearSingleParent {w : World} {j : Nat} (i : Nat) :
    tokClosed (modifyTok w j fun u => { u with _singleParent := none }) i = tokClosed w i :=
  tokClosed_modifyTok_pres (fun u => { u with _singleParent := none }) (fun _ => rfl) i

lemma tokClosed_modify_clearParents {w : World} {j : Nat} (i : Nat) :
    tokClosed (modifyTok w j fun u => { u with _parents := none }) i = tokClosed w i :=
  tokClosed_modifyTok_pres (fun u => { u with _parents := none }) (fun _ => rfl) i

lemma tokClosed_modify_clearUnsub {w : World} {j : Nat} (i : Nat) :
    tokClosed (modifyTok w j fun u => { u with _unsubscribe := none }) i = tokClosed w i :=
  tokClosed_modifyTok_pres (fun u => { u with _unsubscribe := none }) (fun _ => rfl) i

lemma tokClosed_modify_clearTeardowns {w : World} {j : Nat} (i : Nat) :
    tokClosed (modifyTok w j fun u => { u with _teardowns := none }) i = tokClosed w i :=
  tokClosed_modifyTok_pres (fun u => { u with _teardowns := none }) (fun _ => rfl) i

lemma tokClosed_removeParentTok {w : World} {a b : Nat} (i : Nat) :
    tokClosed (removeParentTok w a b) i = tokClosed w i := by
  unfold removeParentTok
  cases hg : w.tokens[a]? with
  | none => rfl
  | some t =>
    obtain ⟨c, sp, ps, tds, us, cf⟩ := t
    cases sp with
    | some p =>
      simp only
      by_cases hp : (p == b) = true
      · rw [if_pos hp]; refine tokClosed_setTok hg ?_ i; rfl
      · rw [if_neg hp]
    | none =>
      cases ps with
      | some l => refine tokClosed_setTok hg ?_ i; rfl
      | none => rfl

lemma tokClosed_removeTok {w : World} {a : Nat} {td : Teardown} (i : Nat) :
    tokClosed (removeTok w a td) i = tokClosed w i := by
  unfold removeTok
  have h1 : ∀ w1 : World, tokClosed w1 i = tokClosed w i →
      tokClosed (match td with
        | Teardown.sub j => removeParentTok w1 j a
        | Teardown.func n e => w1) i = tokClosed w i := by
    intro w1 hw
    cases td with
    | sub j => rw [tokClosed_removeParentTok]; exact hw
    | func n e => exact hw
  cases hg : w.tokens[a]? with
  | none => exact h1 w rfl
  | some t =>
    obtain ⟨c, sp, ps, tds, us, cf⟩ := t
    cases tds with
    | none => exact h1 w rfl
    | some l =>
      refine h1 _ ?_
      refine tokClosed_setTok hg ?_ i; rfl

lemma tokClosed_foldl_removeTok {td : Teardown} (i : Nat) :
    ∀ (ps : List Nat) (w : World),
      tokClosed (ps.foldl (fun w p => removeTok w p td) w) i = tokClosed w i := by
  intro ps
  induction ps with
  | nil => intro w; rfl
  | cons p rest ih => intro w; rw [List.foldl_cons, ih, tokClosed_removeTok]

lemma tokClosed_detachPhase {s : Nat} {t : Token} {w : World} (i : Nat) :
    tokClosed (detachPhase s t w) i = tokClosed w i := by
  unfold detachPhase
  cases t._singleParent with
  | some p => rw [tokClosed_removeTok, tokClosed_modify_clearSingleParent]
  | none =>
    cases t._parents with
    | some ps => rw [tokClosed_foldl_removeTok, tokClosed_modify_clearParents]
    | none => rfl

lemma tokClosed_ctorPhase {s : Nat} {t : Token} {w : World} (i : Nat) :
    tokClosed (ctorPhase s t w).1 i = tokClosed w i := by
  unfold ctorPhase
  cases t._unsubscribe with
  | none => rfl
  | some act =>
    have hmid : ∀ w1 : World, tokClosed w1 i = tokClosed w i →
        tokClosed (match act.2 with
          | none => ({ w1 with log := w1.log ++ [Event.run act.1] }, (none : Option (List Err)))
          | some e => ({ w1 with log := w1.log ++ [Event.run act.1] }, collectErr none e)).1 i
          = tokClosed w i := by
      intro w1 hw
      cases act.2 with
      | none => exact hw
      | some e => exact hw
    cases hcf : t._ctorUnsubscribe with
    | true =>
      simp only [if_true]
      exact hmid _ (tokClosed_modify_clearUnsub i)
    | false =>
      simp only [Bool.false_eq_true, if_false]
      exact hmid w rfl

lemma tokClosed_runTeardowns_mono {step : Nat → World → World × Option Err}
    (hstep : ∀ j w i, tokClosed w i = true → tokClosed (step j w).1 i = true) :
    ∀ (l : List Teardown) (w : World) (e : Option (List Err)) (i : Nat),
      tokClosed w i = true → tokClosed (runTeardowns step l w e).1 i = true := by
  intro l
  induction l with
  | nil => intro w e i h; exact h
  | cons td rest ih =>
    intro w e i h
    cases td with
    | func id er => exact ih _ _ i h
    | sub j => exact ih _ _ i (hstep j w i h)

lemma tokClosed_teardownPhase_mono {step : Nat → World → World × Option Err}
    (hstep : ∀ j w i, tokClosed w i = true → tokClosed (step j w).1 i = true)
    {s : Nat} {w : World} {e : Option (List Err)} {i : Nat}
    (h : tokClosed w i = true) : tokClosed (teardownPhase step s w e).1 i = true := by
  unfold teardownPhase
  have hm : tokClosed (modifyTok w s fun u => { u with _teardowns := none }) i = true := by
    rw [tokClosed_modify_clearTeardowns]; exact h
  cases (match w.tokens[s]? with
    | some u => u._teardowns
    | none => none : Option (List Teardown)) with
  | none => exact hm
  | some list => exact tokClosed_runTeardowns_mono hstep list _ e i hm

lemma tokClosed_modify_setClosed {w : World} {j : Nat} {i : Nat}
    (h : tokClosed w i = true) :
    tokClosed (modifyTok w j fun u => { u with closed := true }) i = true := by
  unfold modifyTok
  cases hg : w.tokens[j]? with
  | none => exact h
  | some t =>
    unfold tokClosed setTok
    by_cases hij : i = j
    · subst hij; rw [List.getElem?_set_self', hg]; rfl
    · rw [List.getElem?_set_ne (by omega)]; exact h

/-- Once a token is closed it never becomes open again: `unsubscribe` (at any
fuel, on any token) preserves every true `closed` flag. -/
lemma tokClosed_unsubscribe_mono :
    ∀ (fuel s : Nat) (w : World) (i : Nat),
      tokClosed w i = true → tokClosed (unsubscribeTok fuel s w).1 i = true := by
  intro fuel
  induction fuel with
  | zero => intro s w i h; exact h
  | succ f ih =>
    intro s w i h
    unfold unsubscribeTok
    cases hg : w.tokens[s]? with
    | none => exact h
    | some t =>
      by_cases hc : t.closed = true
      · simp only [hg, hc, if_true]; exact h
      · simp only [hg, hc, Bool.false_eq_true, if_false]
        apply tokClosed_teardownPhase_mono ih
        rw [tokClosed_ctorPhase, tokClosed_detachPhase]
        exact tokClosed_modify_setClosed h

/-- An `unsubscribe` call on an already-closed token is a complete no-op: the
world (tokens and effect log) is unchanged and nothing is thrown. -/
lemma unsubscribe_closed_noop (g s : Nat) {w : World} (h : tokClosed w s = true) :
    unsubscribeTok g s w = (w, none) := by
  obtain ⟨t, hg, hc⟩ := tokClosed_some h
  cases g with
  | zero => rfl
  | succ f =>
    unfold unsubscribeTok
    simp only [hg, hc, if_true]

/-- After an `unsubscribe` call with nonzero fuel on a valid index, the token
is closed. -/
lemma unsubscribe_closes (f s : Nat) {w : World} (h : s < w.tokens.length) :
    tokClosed (unsubscribeTok (f + 1) s w).1 s = true := by
  have hg : w.tokens[s]? = some w.tokens[s] := List.getElem?_eq_getElem h
  unfold unsubscribeTok
  by_cases hc : (w.tokens[s]).closed = true
  · simp only [hg, hc, if_true]
    unfold tokClosed
    rw [hg]
    simp [hc]
  · simp only [hg, hc, Bool.false_eq_true, if_false]
    apply tokClosed_teardownPhase_mono (tokClosed_unsubscribe_mono f)
    rw [tokClosed_ctorPhase, tokClosed_detachPhase]
    unfold modifyTok
    cases hg2 : (World.mk w.tokens (w.log ++ [Event.closedSet s])).tokens[s]? with
    | none =>
      exfalso
      have : w.tokens[s]? = none := hg2
      rw [hg] at this
      exact Option.noConfusion this
    | some u =>
      unfold tokClosed setTok
      rw [List.getElem?_set_self', hg2]
      rfl

/-- C2 helper: disposing twice leaves the world of the first disposal
untouched and throws nothing the second time. -/
lemma unsubscribe_twice (f g s : Nat) {w : World} (h : s < w.tokens.length) :
    unsubscribeTok g s (unsubscribeTok (f + 1) s w).1 = ((unsubscribeTok (f + 1) s w).1, none) :=
  unsubscribe_closed_noop g s (unsubscribe_closes f s h)

/-- Flattening of one caught error, as performed by the catch blocks:
an `UnsubscriptionError` contributes its inner list, any other error
contributes itself. -/
def flattenOne : Err → List Err
  | .unsub es => es
  | .base n => [Err.base n]

/-- The flat error list collected over a sequence of raised-or-not outcomes,
in order. -/
def raisedFlat : List (Option Err) → List Err
  | [] => []
  | none :: rest => raisedFlat rest
  | some e :: rest => flattenOne e ++ raisedFlat rest

lemma collectErr_eq (errors : Option (List Err)) (e : Err) :
    collectErr errors e = some (errors.getD [] ++ flattenOne e) := by
  cases e with
  | base n => rfl
  | unsub es => rfl

lemma raisedFlat_of_all_none (ps : List (Nat × Option Err))
    (h : ps.all (fun p => p.2.isNone) = true) :
    raisedFlat (ps.map fun p => p.2) = [] := by
  induction ps with
  | nil => rfl
  | cons p rest ih =>
    rw [List.all_cons, Bool.and_eq_true] at h
    cases hp : p.2 with
    | none => simp only [List.map_cons, hp, raisedFlat]; exact ih h.2
    | some e => rw [hp] at h; simp at h

/-- Running a list of plain-function teardowns appends one `run` event per
teardown, in insertion order, and collects exactly the raised errors,
flattened, in order. -/
lemma runTeardowns_funcs (step : Nat → World → World × Option Err)
    (ps : List (Nat × Option Err)) :
    ∀ (w : World) (errors : Option (List Err)),
      runTeardowns step (ps.map fun p => Teardown.func p.1 p.2) w errors =
      ({ w with log := w.log ++ ps.map (fun p => Event.run p.1) },
       if ps.all (fun p => p.2.isNone) then errors
       else some (errors.getD [] ++ raisedFlat (ps.map fun p => p.2))) := by
  induction ps with
  | nil =>
    intro w errors
    simp only [List.map_nil, runTeardowns, List.append_nil, List.all_nil, if_true]
  | cons p rest ih =>
    intro w errors
    cases hp : p.2 with
    | none =>
      simp only [List.map_cons, runTeardowns, hp]
      rw [ih]
      simp only [List.all_cons, hp, Option.isNone_none, Bool.true_and, List.map_cons,
        raisedFlat, List.append_assoc, List.singleton_append]
    | some e =>
      simp only [List.map_cons, runTeardowns, hp]
      rw [ih, collectErr_eq]
      have hall2 : ((p :: rest).all fun p => p.2.isNone) = false := by
        simp [List.all_cons, hp]
      by_cases hall : rest.all (fun p => p.2.isNone) = true
      · rw [if_pos hall, hall2, if_neg (by simp)]
        simp [raisedFlat, raisedFlat_of_all_none rest hall, List.append_assoc]
      · rw [if_neg hall, hall2, if_neg (by simp)]
        simp [raisedFlat, List.append_assoc]

/-- Running a list of non-throwing plain-function teardowns appends their
`run` events in order and leaves the error accumulator untouched. -/
lemma runTeardowns_funcs_ok (step : Nat → World → World × Option Err)
    (ids : List Nat) :
    ∀ (w : World) (errors : Option (List Err)),
      runTeardowns step (ids.map fun id => Teardown.func id none) w errors =
      ({ w with log := w.log ++ ids.map Event.run }, errors) := by
  induction ids with
  | nil => intro w errors; simp only [List.map_nil, runTeardowns, List.append_nil]
  | cons id rest ih =>
    intro w errors
    simp only [List.map_cons, runTeardowns]
    rw [ih]
    simp [List.append_assoc]

/-- C2: the token disposed once is closed, and a second `dispose()` call on
it is a no-op: it returns the world of the first call completely unchanged
(same tokens, same effect log — so each stored teardown and the
construction-time release action have run exactly once in total) and throws
nothing. -/
theorem unsubscribe_idempotent (f g s : Nat) (w : World) (h : s < w.tokens.length) :
    unsubscribeTok g s (unsubscribeTok (f + 1) s w).1 = ((unsubscribeTok (f + 1) s w).1, none) ∧
    tokClosed (unsubscribeTok (f + 1) s w).1 s = true :=
  ⟨unsubscribe_twice f g s h, unsubscribe_closes f s h⟩

/-- Concrete subscription with a constructor release action and one stored
teardown, for the C2 witness. -/
def wC2 : World :=
  { tokens := [{ closed := false, _singleParent := none, _parents := none,
                 _teardowns := some [Teardown.func 1 none],
                 _unsubscribe := some (2, none), _ctorUnsubscribe := true }],
    log := [] }

/-- C2 witness: the idempotence theorem evaluated on a concrete world. -/
theorem unsubscribe_idempotent_witness :
    unsubscribeTok 1 0 (unsubscribeTok 1 0 wC2).1 = ((unsubscribeTok 1 0 wC2).1, none) ∧
    tokClosed (unsubscribeTok 1 0 wC2).1 0 = true :=
  unsubscribe_idempotent 0 1 0 wC2 (by decide)

/-- C3: disposing a token whose stored teardowns are arbitrary plain
functions runs every one of them in insertion order (one failure never
prevents the rest — all the `run` events appear), and throws exactly one
`UnsubscriptionError` whose list is the raised errors in insertion order with
any nested `UnsubscriptionError` flattened in place, or returns normally when
none raised an error. -/
theorem unsubscribe_error_aggregation (tds : List (Nat × Option Err)) (L : List Event) :
    unsubscribeTok 1 0
      { tokens := [{ closed := false, _singleParent := none, _parents := none,
                     _teardowns := some (tds.map fun p => Teardown.func p.1 p.2),
                     _unsubscribe := none, _ctorUnsubscribe := false }], log := L } =
    ({ tokens := [{ closed := true, _singleParent := none, _parents := none,
                    _teardowns := none, _unsubscribe := none, _ctorUnsubscribe := false }],
       log := (L ++ [Event.closedSet 0]) ++ tds.map (fun p => Event.run p.1) },
     if tds.all (fun p => p.2.isNone) then none
     else some (Err.unsub (raisedFlat (tds.map fun p => p.2)))) := by
  have step1 : unsubscribeTok 1 0
      { tokens := [{ closed := false, _singleParent := none, _parents := none,
                     _teardowns := some (tds.map fun p => Teardown.func p.1 p.2),
                     _unsubscribe := none, _ctorUnsubscribe := false }], log := L } =
      (let r := runTeardowns (unsubscribeTok 0) (tds.map fun p => Teardown.func p.1 p.2)
        { tokens := [{ closed := true, _singleParent := none, _parents := none,
                       _teardowns := none, _unsubscribe := none, _ctorUnsubscribe := false }],
          log := L ++ [Event.closedSet 0] } none
       (r.1, r.2.map Err.unsub)) := rfl
  rw [step1, runTeardowns_funcs]
  by_cases hall : tds.all (fun p => p.2.isNone) = true
  · simp [hall]
  · simp only [hall, Bool.false_eq_true, if_false, Option.getD_none, List.nil_append]
    rfl

lemma getq_append_len (l1 : List Token) : ∀ (x : Token) (l2 : List Token),
    (l1 ++ x :: l2)[l1.length]? = some x := by
  induction l1 with
  | nil => intro x l2; simp
  | cons b rest ih =>
    intro x l2
    simp only [List.cons_append, List.length_cons, List.getElem?_cons_succ]
    exact ih x l2

lemma set_append_len (l1 : List Token) : ∀ (x y : Token) (l2 : List Token),
    (l1 ++ x :: l2).set l1.length y = l1 ++ y :: l2 := by
  induction l1 with
  | nil => intro x y l2; rfl
  | cons b rest ih =>
    intro x y l2
    simp only [List.cons_append, List.length_cons, List.set_cons_succ]
    rw [ih]


lemma getq_cons_append (a : Token) (l1 : List Token) (x : Token) (l2 : List Token) :
    (a :: (l1 ++ x :: l2))[l1.length + 1]? = some x := by
  rw [List.getElem?_cons_succ]
  exact getq_append_len l1 x l2

lemma set_cons_append (a : Token) (l1 : List Token) (x y : Token) (l2 : List Token) :
    (a :: (l1 ++ x :: l2)).set (l1.length + 1) y = a :: (l1 ++ y :: l2) := by
  rw [List.set_cons_succ]
  rw [set_append_len]

/-- The parent's stored teardown list after `n` children were attached via
`add`: subscription teardowns for arena slots `i, i+1, ...`. -/
def childSubs : Nat → Nat → List Teardown
  | _, 0 => []
  | i, n + 1 => Teardown.sub i :: childSubs (i + 1) n

/-- A parent token holding `n` attached children (slots 1 to n). -/
def parentTok (n : Nat) : Token :=
  { closed := false, _singleParent := none, _parents := none,
    _teardowns := some (childSubs 1 n), _unsubscribe := none, _ctorUnsubscribe := false }

/-- The parent token mid-disposal and afterwards: closed, detached,
teardown list cleared. -/
def parentDone : Token :=
  { closed := true, _singleParent := none, _parents := none,
    _teardowns := none, _unsubscribe := none, _ctorUnsubscribe := false }

/-- A child token attached to parent slot 0 (its `_singleParent`
back-reference as `add` leaves it), holding plain-function teardowns with the
given identities; the Boolean is its `closed` flag before the parent is
disposed. -/
def childTok : Bool × List Nat → Token
  | (c, ids) => { closed := c, _singleParent := some 0, _parents := none,
                  _teardowns := some (ids.map fun id => Teardown.func id none),
                  _unsubscribe := none, _ctorUnsubscribe := false }

/-- The same child after the parent's disposal pass: an open child has been
closed, detached and cleared; an already-closed child is untouched. -/
def childDone : Bool × List Nat → Token
  | (true, ids) => childTok (true, ids)
  | (false, _) => { closed := true, _singleParent := none, _parents := none,
                    _teardowns := none, _unsubscribe := none, _ctorUnsubscribe := false }

/-- The effect events of the parent's disposal pass over its children, in
order: each still-open child contributes exactly one `closedSet` transition
followed by its teardown runs; an already-closed child contributes nothing. -/
def childEvents : Nat → List (Bool × List Nat) → List Event
  | _, [] => []
  | i, (true, _) :: rest => childEvents (i + 1) rest
  | i, (false, ids) :: rest => (Event.closedSet i :: ids.map Event.run) ++ childEvents (i + 1) rest


lemma modifyTok_cons_append (a : Token) (l1 : List Token) (x : Token) (l2 : List Token)
    (L : List Event) (f : Token → Token) :
    modifyTok { tokens := a :: (l1 ++ x :: l2), log := L } (l1.length + 1) f =
    { tokens := a :: (l1 ++ f x :: l2), log := L } := by
  unfold modifyTok
  rw [show (World.mk (a :: (l1 ++ x :: l2)) L).tokens[l1.length + 1]? = some x from
    getq_cons_append a l1 x l2]
  unfold setTok
  simp only
  rw [show (a :: (l1 ++ x :: l2)).set (l1.length + 1) (f x) = a :: (l1 ++ f x :: l2) from
    set_cons_append a l1 x (f x) l2]

lemma removeTok_parentDone_sub (done2 tail2 : List Token) (x : Token) (L2 : List Event)
    (hsp : x._singleParent = none) (hps : x._parents = none) :
    removeTok { tokens := parentDone :: (done2 ++ x :: tail2), log := L2 } 0
      (Teardown.sub (done2.length + 1)) =
    { tokens := parentDone :: (done2 ++ x :: tail2), log := L2 } := by
  unfold removeTok
  rw [show ({ tokens := parentDone :: (done2 ++ x :: tail2), log := L2 } : World).tokens[0]? = some parentDone from by simp]
  simp only [show parentDone._teardowns = none from rfl]
  unfold removeParentTok
  rw [show ({ tokens := parentDone :: (done2 ++ x :: tail2), log := L2 } : World).tokens[done2.length + 1]? = some x from getq_cons_append parentDone done2 x tail2]
  dsimp only
  rw [hsp]
  dsimp only
  rw [hps]

/-- Disposing one still-open child inside the parent's pass: it closes,
detaches from the (already cleared) parent, runs its teardowns, throws
nothing. -/
lemma dispose_child_open (done tail : List Token) (ids : List Nat) (L : List Event) :
    unsubscribeTok 1 (done.length + 1)
      { tokens := parentDone :: (done ++ childTok (false, ids) :: tail), log := L } =
    ({ tokens := parentDone :: (done ++ childDone (false, ids) :: tail),
       log := (L ++ [Event.closedSet (done.length + 1)]) ++ ids.map Event.run }, none) := by
  unfold unsubscribeTok
  rw [show ({ tokens := parentDone :: (done ++ childTok (false, ids) :: tail), log := L } : World).tokens[done.length + 1]? = some (childTok (false, ids)) from getq_cons_append parentDone done (childTok (false, ids)) tail]
  simp only [childTok]
  rw [if_neg (by simp)]
  rw [modifyTok_cons_append]
  dsimp only
  dsimp only [detachPhase]
  rw [modifyTok_cons_append]
  dsimp only
  rw [removeTok_parentDone_sub done tail _ _ rfl rfl]
  dsimp only [ctorPhase, teardownPhase]
  rw [getq_cons_append]
  dsimp only
  rw [modifyTok_cons_append]
  dsimp only
  rw [runTeardowns_funcs_ok]
  simp [childDone]

/-- Disposing an already-closed child inside the parent's pass is a no-op. -/
lemma dispose_child_closed (g : Nat) (done tail : List Token) (ids : List Nat) (L : List Event) :
    unsubscribeTok g (done.length + 1)
      { tokens := parentDone :: (done ++ childTok (true, ids) :: tail), log := L } =
    ({ tokens := parentDone :: (done ++ childTok (true, ids) :: tail), log := L }, none) := by
  apply unsubscribe_closed_noop
  unfold tokClosed
  rw [getq_cons_append]
  rfl

/-- The parent's teardown loop over its attached children. -/
lemma run_children : ∀ (cs : List (Bool × List Nat)) (done : List Token) (L : List Event),
    runTeardowns (unsubscribeTok 1) (childSubs (done.length + 1) cs.length)
      { tokens := parentDone :: (done ++ cs.map childTok), log := L } none =
    ({ tokens := parentDone :: (done ++ cs.map childDone),
       log := L ++ childEvents (done.length + 1) cs }, none) := by
  intro cs
  induction cs with
  | nil => intro done L; simp [childSubs, runTeardowns, childEvents]
  | cons c rest ih =>
    intro done L
    obtain ⟨flag, ids⟩ := c
    cases flag with
    | false =>
      simp only [List.length_cons, childSubs, List.map_cons, runTeardowns]
      rw [dispose_child_open done (rest.map childTok) ids L]
      dsimp only
      rw [List.append_cons done (childDone (false, ids)) (rest.map childTok)]
      rw [show done.length + 1 + 1 = (done ++ [childDone (false, ids)]).length + 1 by simp]
      rw [ih (done ++ [childDone (false, ids)])]
      simp [childEvents, List.append_assoc]
    | true =>
      simp only [List.length_cons, childSubs, List.map_cons, runTeardowns]
      rw [dispose_child_closed 1 done (rest.map childTok) ids L]
      dsimp only
      rw [show (childTok (true, ids)) = childDone (true, ids) from rfl]
      rw [List.append_cons done (childDone (true, ids)) (rest.map childTok)]
      rw [show done.length + 1 + 1 = (done ++ [childDone (true, ids)]).length + 1 by simp]
      rw [ih (done ++ [childDone (true, ids)])]
      simp [childEvents, childDone, List.append_assoc]

/-- C4: disposing a parent with any number of attached children (each either
still open, with its own plain teardowns, or already closed) disposes every
still-open child and leaves closed children untouched.  The effect log shows
the parent's `closedSet 0` transition strictly before any child is touched,
and `childEvents` contains exactly one `closedSet` per still-open child (its
single false-to-true transition); the second conjunct shows any re-entrant
`dispose` on an already-closed token — such as the parent, or a descendant,
during the pass — is absorbed as a no-op. -/
theorem unsubscribe_parent_propagates (cs : List (Bool × List Nat)) (L : List Event) :
    unsubscribeTok 2 0 { tokens := parentTok cs.length :: cs.map childTok, log := L } =
    ({ tokens := parentDone :: cs.map childDone,
       log := (L ++ [Event.closedSet 0]) ++ childEvents 1 cs }, none) ∧
    (∀ (g : Nat) (w : World), tokClosed w 0 = true → unsubscribeTok g 0 w = (w, none)) := by
  constructor
  · unfold unsubscribeTok
    rw [List.getElem?_cons_zero]
    simp only [parentTok]
    rw [if_neg (by simp)]
    unfold modifyTok
    rw [List.getElem?_cons_zero]
    unfold setTok
    dsimp only
    rw [List.set_cons_zero]
    dsimp only [detachPhase, ctorPhase, teardownPhase]
    unfold modifyTok
    rw [List.getElem?_cons_zero]
    dsimp only
    unfold setTok
    dsimp only
    rw [List.set_cons_zero]
    have hrc := run_children cs [] (L ++ [Event.closedSet 0])
    simp only [List.nil_append, List.length_nil, Nat.zero_add, parentDone] at hrc
    simp only [parentDone]
    rw [hrc]
    rfl
  · intro g w h
    exact unsubscribe_closed_noop g 0 h

/-- C4 witness: the parent-propagation theorem evaluated on a parent with one
open child (teardown identity 7) and one already-closed child. -/
theorem unsubscribe_parent_propagates_witness :
    unsubscribeTok 2 0
      { tokens := parentTok ([((false : Bool), [7]), ((true : Bool), [8])] : List (Bool × List Nat)).length ::
          ([((false : Bool), [7]), ((true : Bool), [8])] : List (Bool × List Nat)).map childTok,
        log := [] } =
    ({ tokens := parentDone ::
          ([((false : Bool), [7]), ((true : Bool), [8])] : List (Bool × List Nat)).map childDone,
       log := ([] ++ [Event.closedSet 0]) ++
          childEvents 1 ([((false : Bool), [7]), ((true : Bool), [8])] : List (Bool × List Nat)) }, none) :=
  (unsubscribe_parent_propagates [((false : Bool), [7]), ((true : Bool), [8])] []).1

/-- C6: for every token — open or closed — `add` of an absent teardown or of
the token itself is a no-op (stores nothing, throws nothing, the world is
completely unchanged: the checks precede any state access); and when the
token is already closed, `add` executes the teardown immediately during the
call instead of storing it: a plain-function teardown is invoked right there
(one `run` event, token arena unchanged) and a subscription teardown is
disposed via `unsubscribe`. -/
theorem add_noop_and_closed_exec (fuel s id j : Nat) (w : World) :
    addTok fuel s none w = (w, none) ∧
    addTok fuel s (some (Teardown.sub s)) w = (w, none) ∧
    (tokClosed w s = true →
      addTok fuel s (some (Teardown.func id none)) w =
        ({ w with log := w.log ++ [Event.run id] }, none) ∧
      addTok fuel s (some (Teardown.sub j)) w =
        (if j = s then (w, none) else unsubscribeTok fuel j w)) := by
  refine ⟨rfl, ?_, ?_⟩
  · simp [addTok, Teardown.sameRef]
  · intro hs
    obtain ⟨t, hg, hc⟩ := tokClosed_some hs
    constructor
    · simp [addTok, Teardown.sameRef, hg, hc]
    · by_cases hj : j = s
      · subst hj
        simp [addTok, Teardown.sameRef]
      · simp [addTok, Teardown.sameRef, hg, hc, hj]

/-- An open token holding a stored teardown, for the C6 witness's open-token
no-op cases. -/
def wOpen6 : World :=
  { tokens := [{ closed := false, _singleParent := none, _parents := none,
                 _teardowns := some [Teardown.func 9 none],
                 _unsubscribe := none, _ctorUnsubscribe := false }],
    log := [] }

/-- Two already-closed tokens, for the C6 witness's closed-token cases. -/
def wC6 : World := { tokens := [Token.EMPTY, Token.EMPTY], log := [] }

/-- C6 witness: the `add` theorem evaluated concretely — the absent-teardown
and self-add no-ops on an open token, and absent-teardown plus the two
immediate-execution cases (plain function of identity 5, sibling
subscription) on a closed token. -/
theorem add_noop_and_closed_exec_witness :
    addTok 1 0 none wOpen6 = (wOpen6, none) ∧
    addTok 1 0 (some (Teardown.sub 0)) wOpen6 = (wOpen6, none) ∧
    addTok 1 0 none wC6 = (wC6, none) ∧
    addTok 1 0 (some (Teardown.func 5 none)) wC6 =
      ({ wC6 with log := wC6.log ++ [Event.run 5] }, none) ∧
    addTok 1 0 (some (Teardown.sub 1)) wC6 =
      (if (1 : Nat) = 0 then (wC6, none) else unsubscribeTok 1 1 wC6) :=
  ⟨(add_noop_and_closed_exec 1 0 5 1 wOpen6).1,
   (add_noop_and_closed_exec 1 0 5 1 wOpen6).2.1,
   (add_noop_and_closed_exec 1 0 5 1 wC6).1,
   ((add_noop_and_closed_exec 1 0 5 1 wC6).2.2 (by decide)).1,
   ((add_noop_and_closed_exec 1 0 5 1 wC6).2.2 (by decide)).2⟩

/-- C10: `Subscription.EMPTY` is permanently closed: its `closed` flag is
true, disposing it is a complete no-op, and `add` of a plain-action teardown
on it executes the action immediately during the call and stores nothing
(the token arena is unchanged), so the shared `EMPTY` never accumulates
state. -/
theorem empty_token_invariants (g id i : Nat) (w : World)
    (h : w.tokens[i]? = some Token.EMPTY) :
    Token.EMPTY.closed = true ∧
    unsubscribeTok g i w = (w, none) ∧
    addTok g i (some (Teardown.func id none)) w =
      ({ w with log := w.log ++ [Event.run id] }, none) := by
  have hcl : tokClosed w i = true := by
    unfold tokClosed
    rw [h]
    rfl
  refine ⟨rfl, unsubscribe_closed_noop g i hcl, ?_⟩
  simp [addTok, Teardown.sameRef, h, show Token.EMPTY.closed = true from rfl]

/-- A world holding only the shared `EMPTY` token, for the C10 witness. -/
def wEMPTY : World := { tokens := [Token.EMPTY], log := [] }

/-- C10 witness: the `EMPTY` invariants evaluated on a concrete world. -/
theorem empty_token_invariants_witness :
    Token.EMPTY.closed = true ∧
    unsubscribeTok 1 0 wEMPTY = (wEMPTY, none) ∧
    addTok 1 0 (some (Teardown.func 5 none)) wEMPTY =
      ({ wEMPTY with log := wEMPTY.log ++ [Event.run 5] }, none) :=
  empty_token_invariants 1 5 0 wEMPTY (by simp [wEMPTY])

/-- The iterator of the finite pull sequence `[1, 2, 3]`: state is the count
of items already produced. -/
def step3 : Nat → Option Nat × Nat := fun n => if n < 3 then (some (n + 1), n + 1) else (none, n)

/-- C7: the pull-sequence adapter on `[1, 2, 3]` with an open token and a
passive sink delivers exactly NEXT(1), NEXT(2), NEXT(3), COMPLETE, in that
order, with no ERROR — at any loop fuel at least 4 (the loop runs 4
iterations and stops). -/
theorem iterable_protocol_exactness (fuel : Nat) :
    iterableSource passiveDeliver step3 (fuel + 4) 0 { received := [], closed := false } =
    { received := [Msg.next 1, Msg.next 2, Msg.next 3, Msg.complete], closed := false } := rfl

/-- The iterator of the infinite pull sequence `1, 2, 3, ...` — it is never
exhausted. -/
def stepNat : Nat → Option Nat × Nat := fun n => (some (n + 1), n + 1)

/-- The pull loop checks `closed` before every pull: on a closed token it
stops silently at once (no pull, no message) and reports no exhaustion, so no
COMPLETE follows, at any fuel. -/
lemma iterableLoop_closed (d : SinkSt → Msg → SinkSt) (st : Nat → Option Nat × Nat)
    (g it : Nat) (r : List Msg) :
    iterableLoop d st g it { received := r, closed := true } =
    ({ received := r, closed := true }, false) := by
  cases g with
  | zero => rfl
  | succ f => rfl

/-- C8: the pull-sequence adapter on the infinite sequence with a sink that
disposes the token upon NEXT(1): whatever the remaining fuel (i.e. however
long the unbounded loop would still run), the delivered messages are exactly
[NEXT 1] — no further NEXT and no terminal, ever; and (second conjunct) with
the token closed before any pull, nothing at all is delivered and no COMPLETE
is sent. -/
theorem iterable_cancellation_mid_sequence (fuel g it : Nat) (r : List Msg) :
    iterableSource cancelOnNextDeliver stepNat (fuel + 1) 0 { received := [], closed := false } =
    { received := [Msg.next 1], closed := true } ∧
    iterableSource cancelOnNextDeliver stepNat g it { received := r, closed := true } =
    { received := r, closed := true } := by
  constructor
  · have h1 : iterableLoop cancelOnNextDeliver stepNat (fuel + 1) 0 { received := [], closed := false } =
        iterableLoop cancelOnNextDeliver stepNat fuel 1 { received := [Msg.next 1], closed := true } := rfl
    unfold iterableSource
    rw [h1, iterableLoop_closed]
    rfl
  · unfold iterableSource
    rw [iterableLoop_closed]
    rfl

/-- C9: for every input shape, `fromSource` selects exactly the adapter of
the first matching shape in the fixed precedence (streaming pass-through,
deferred-value, array-like, sync-iterable, interop, async-iterable), and
throws the unconvertible-input error synchronously when none matches —
i.e. dispatch coincides with the spec's first-match table `dispatchSpec`. -/
theorem fromSource_first_match (x : InputShape) : fromSource x = dispatchSpec x := by
  obtain ⟨a, b, c, d, e, f⟩ := x
  cases a <;> cases b <;> cases c <;> cases d <;> cases e <;> cases f <;> rfl

lemma terminalCount_append (l1 l2 : List Msg) :
    terminalCount (l1 ++ l2) = terminalCount l1 + terminalCount l2 := by
  simp [terminalCount, List.filter_append]

/-- The pull loop itself delivers only NEXT messages: with a passive sink it
never changes the number of terminal messages received. -/
lemma iterableLoop_passive_terminalCount (st : Nat → Option Nat × Nat) :
    ∀ (g it : Nat) (s : SinkSt),
      terminalCount ((iterableLoop passiveDeliver st g it s).1.received) =
      terminalCount s.received := by
  intro g
  induction g with
  | zero => intro it s; rfl
  | succ f ih =>
    intro it s
    show terminalCount ((if s.closed then (s, false)
      else match st it with
        | (none, _) => (s, true)
        | (some v, it2) => iterableLoop passiveDeliver st f it2 (passiveDeliver s (Msg.next v))).1.received) = _
    cases hs : s.closed with
    | true => rw [if_pos rfl]
    | false =>
      rw [if_neg (by simp)]
      cases hst : st it with
      | mk o it2 =>
        cases o with
        | none => rfl
        | some v =>
          dsimp only
          rw [ih]
          simp [passiveDeliver, terminalCount_append, terminalCount, isTerminal]

/-- The async-pull adapter stops requesting after the first done/rejected
settlement, so it delivers at most one terminal message. -/
lemma asyncIterable_terminalCount :
    ∀ (steps : List (Except PErr (Option Nat))) (s : SinkSt),
      terminalCount ((asyncIterableSource passiveDeliver steps s).received) ≤
      terminalCount s.received + 1 := by
  intro steps
  induction steps with
  | nil => intro s; exact Nat.le_succ _
  | cons stp rest ih =>
    intro s
    cases stp with
    | error e =>
      simp [asyncIterableSource, passiveDeliver, terminalCount_append, terminalCount, isTerminal]
    | ok o =>
      cases o with
      | none =>
        simp [asyncIterableSource, passiveDeliver, terminalCount_append, terminalCount, isTerminal]
      | some v =>
        have h := ih (passiveDeliver s (Msg.next v))
        simp only [passiveDeliver, terminalCount_append] at h
        simpa [asyncIterableSource, terminalCount, isTerminal] using h

/-- C1 (amended): at most one terminal message is delivered per subscription
by the deferred-value, pull-sequence and async-pull adapters, and the
pull-sequence adapter and the deferred-value success path deliver nothing
when the token is observed closed; but this does not extend to every path of
every adapter: the deferred-value rejection path and the async-pull adapter
do not consult the token at all (see the counterexample), and the interop
adapter forwards external messages unguarded. -/
theorem adapters_terminal_discipline :
    (∀ (v : Nat) (r : List Msg),
      promiseSource passiveDeliver (Except.ok v) { received := r, closed := true } =
      { received := r, closed := true }) ∧
    (∀ (outcome : Except PErr Nat) (s : SinkSt),
      terminalCount ((promiseSource passiveDeliver outcome s).received) ≤
      terminalCount s.received + 1) ∧
    (∀ (d : SinkSt → Msg → SinkSt) (st : Nat → Option Nat × Nat) (g it : Nat) (r : List Msg),
      iterableSource d st g it { received := r, closed := true } =
      { received := r, closed := true }) ∧
    (∀ (st : Nat → Option Nat × Nat) (g it : Nat) (s : SinkSt),
      terminalCount ((iterableSource passiveDeliver st g it s).received) ≤
      terminalCount s.received + 1) ∧
    (∀ (steps : List (Except PErr (Option Nat))) (s : SinkSt),
      terminalCount ((asyncIterableSource passiveDeliver steps s).received) ≤
      terminalCount s.received + 1) := by
  refine ⟨fun v r => rfl, ?_, ?_, ?_, asyncIterable_terminalCount⟩
  · intro outcome s
    cases outcome with
    | ok v =>
      cases hs : s.closed with
      | true =>
        simp [promiseSource, hs]
      | false =>
        simp [promiseSource, hs, passiveDeliver, terminalCount_append, terminalCount, isTerminal]
    | error e =>
      simp [promiseSource, passiveDeliver, terminalCount_append, terminalCount, isTerminal]
  · intro d st g it r
    unfold iterableSource
    rw [iterableLoop_closed]
    rfl
  · intro st g it s
    unfold iterableSource
    cases hp : (iterableLoop passiveDeliver st g it s).2 with
    | true =>
      rw [if_pos hp]
      show terminalCount ((iterableLoop passiveDeliver st g it s).1.received ++ [Msg.complete]) ≤ _
      rw [terminalCount_append, iterableLoop_passive_terminalCount]
      simp [terminalCount, isTerminal]
    | false =>
      rw [if_neg (by rw [hp]; simp)]
      rw [iterableLoop_passive_terminalCount]
      exact Nat.le_succ _

/-- C1 counterexample: with the subscription's token already closed, the
deferred-value adapter's rejection path still delivers a terminal ERROR
message — the rejection callback never checks `subs.closed` — refuting the
claim that across every adapter no terminal message is delivered after the
token is closed. -/
theorem promise_error_delivered_after_close :
    promiseSource passiveDeliver (Except.error (PErr.value 7))
      { received := [], closed := true } =
    { received := [Msg.error (PErr.value 7)], closed := true } := rfl

/-- C5 evaluated at the failing input: when the conversion capability returns
null/undefined, the adapter delivers the "observable not returned" ERROR but
then — the first validation branch lacking the `return` the second one has —
falls through to the `obs.subscribe` member access, and a TypeError escapes
to the caller of SUBSCRIBE (`crashed = true`); by contrast a truthy object
without a subscribe capability is handled as the claim says: exactly one
ERROR, nothing thrown. -/
theorem interop_nullish_error_then_crash :
    symbolObservableSource passiveDeliver InteropObs.nullish { received := [], closed := false } =
    { sink := { received := [Msg.error PErr.invalidNoObservable], closed := false },
      crashed := true, teardownRegistered := false } ∧
    symbolObservableSource passiveDeliver InteropObs.noSubscribe { received := [], closed := false } =
    { sink := { received := [Msg.error PErr.invalidNoSubscribe], closed := false },
      crashed := false, teardownRegistered := false } :=
  ⟨rfl, rfl⟩
